import Mathlib

/-!
# PlayIt engine — verification of the control-plane core

Shallow embedding of the PlayIt media-engine core (`engine/src/lib.rs`,
`engine/src/player/sequencer.rs`, `engine/src/player/database.rs`,
`engine/src/ipc/server.rs`, `engine/src/ipc/client.rs`) together with
proofs and refutations of its specification's claims.

Modelling conventions:
* Track ids, hashes and socket payload bytes are `String` / `List Nat`.
* `uuid::Uuid` connection tokens are modelled as `Nat`; the nil (all-zero)
  token is `0`, and `Uuid::new_v4()` tokens handed to real peer connections
  are non-zero.
* `rand::random::<u32>()` draws are supplied explicitly as a function
  `Nat → Nat` giving the draw made at each loop iteration.
* Rust operations that can panic or that block forever on a `tokio::sync::Mutex`
  already held by the same task return `Option`/`none` for those inputs.
* The `Arc<Mutex<_>>` queue fields of `Sequencer` are modelled as two storage
  cells; a sequencer handle carries a reference to a cell for its `queue`
  field and one for its `shuffled_queue` field, so that `impl Clone for
  Sequencer` (which clones the `queue` Arc into the `shuffled_queue` field)
  is representable.
-/

/-- Model of `LoopMode` from `engine/src/lib.rs`. -/
inductive LoopMode
  | nonemode
  | loopQueue
  | loopRecording
deriving DecidableEq, Repr

/-- Model of `Permission` from `engine/src/lib.rs`. -/
inductive Permission
  | control
  | queuePerm
  | playlist
  | transfer
deriving DecidableEq, Repr

/-- Model of `musicbrainz_rs::entity::recording::Recording`, reduced to the identity
data the engine actually reads. -/
structure Recording where
  id : String
deriving DecidableEq, Repr

/-- Model of `RecordingMetadata` from `engine/src/player/mod.rs`. -/
structure RecordingMetadata where
  audio_file_hash : Option String
  recording : Recording
deriving DecidableEq, Repr

/-- Model of `PlaylistMetadata` from `engine/src/player/mod.rs`. -/
structure PlaylistMetadata where
  id : String
  name : String
  recordings : List String
deriving DecidableEq, Repr

/-- Model of `std::time::Duration`, as the engine only ever forwards it: a number. -/
abbrev Duration := Nat

/-- Model of `f32` volume values; the core only forwards them to the device, never
computes with them, so an opaque integer stand-in is faithful. -/
abbrev Volume := Int

/-- Model of `EngineCommand` from `engine/src/lib.rs`. -/
inductive EngineCommand
  | nonecmd
  | goodbye
  | play (id : Option String)
  | pause
  | next
  | previous
  | seek (position : Duration)
  | queue (ids : Option (List String))
  | shuffleQueue (enable : Bool)
  | clearQueue
  | loopMode (m : LoopMode)
  | recordingMetadata (id : String)
  | recordingFile (id : String)
  | sendRecording (id : String) (bytes : List Nat)
  | playlistMetadata (id : String)
  | setPlaylistMetadata (m : PlaylistMetadata)
  | setVolume (v : Volume)
  | getPermissions
  | setPermissions (ps : List Permission)
deriving DecidableEq, Repr

/-- Model of `EngineResponse` from `engine/src/lib.rs`. -/
inductive EngineResponse
  | ok (c : EngineCommand)
  | nope (c : EngineCommand)
  | nowPlaying (id : String)
  | nowPaused
  | seek (d : Duration)
  | currentTime (d : Duration)
  | queue (ids : List String)
  | loopMode (m : LoopMode)
  | recordingMetadata (m : RecordingMetadata)
  | recordingFile (id : String) (bytes : List Nat)
  | playlistMetadata (m : PlaylistMetadata)
  | permissions (ps : List Permission)
deriving DecidableEq, Repr

/-- Model of `uuid::Uuid` connection tokens, as the engine uses them: equality tests
and the nil constant only. -/
abbrev Uuid := Nat

/-- Model of `Uuid::nil()`: the all-zero token reserved for the internal bus. -/
def Uuid.nil : Uuid := 0

/-- One send performed by the command processor: either onto the internal
response bus (`engine_response_sender`) or onto the external broadcast
channel shared by the per-connection writers (`response_sender`). -/
inductive Send
  | toInternal (r : EngineResponse)
  | toRemote (r : EngineResponse) (uuid : Uuid)
deriving DecidableEq, Repr

/-- Model of `route_response` from `engine/src/lib.rs` lines 869-884, returning the
list of sends it performs. -/
def route_response (internal : Bool) (response : EngineResponse) (uuid : Uuid) :
    List Send :=
  if internal then
    [Send.toInternal response]
  else if uuid = Uuid.nil then
    [Send.toInternal response, Send.toRemote response uuid]
  else
    [Send.toRemote response uuid]

/-- Model of `permission_exists` from `engine/src/lib.rs` lines 886-892. -/
def permission_exists (permission_array : List Permission) (permission : Permission) :
    Bool :=
  if permission_array.any (fun e => e = permission) then true else false

/-- The filter applied by the per-connection writer task in
`IPCServer::create` (`engine/src/ipc/server.rs` line 109): the message is
forwarded unless `uuid != sender_connection_id && !uuid.is_nil()`. -/
def connectionWriterForwards (sender_connection_id uuid : Uuid) : Bool :=
  !(uuid ≠ sender_connection_id && !(uuid = Uuid.nil))

/-- Bytes emitted by the server's per-connection writer for one response
(`engine/src/ipc/server.rs` lines 113-119): it writes the
`serde_json::to_string` payload as-is. -/
def serverConnectionWrite (payload : List Nat) : List Nat :=
  payload

/-- Bytes emitted by the client's writer for one command
(`engine/src/ipc/client.rs` lines 79-87): the `serde_json::to_vec` payload
with a `b'\n'` (byte 10) pushed onto the end. -/
def clientConnectionWrite (payload : List Nat) : List Nat :=
  payload ++ [10]

/-- Number of trailing newline bytes (0x0A) at the end of a byte string. -/
def trailingNewlines (bytes : List Nat) : Nat :=
  (bytes.reverse.takeWhile (fun b => b = 10)).length

/-! ## Database (`engine/src/player/database.rs`) -/

/-- A value stored in a sled tree: the `serde_json` bytes of either a
`RecordingMetadata` or a `PlaylistMetadata`.  Deserialization at the other
type fails (`DataConversionFailure`). -/
inductive StoredVal
  | recv (m : RecordingMetadata)
  | plv (m : PlaylistMetadata)
deriving DecidableEq, Repr

/-- Model of `DatabaseError` from `engine/src/player/database.rs`. -/
inductive DatabaseError
  | initializationFailed
  | databaseFailure
  | musicbrainzFailure
  | dataConversionFailure
  | recordingMetadataNotFound
  | recordingFileNotFound
  | playlistNotFound
deriving DecidableEq, Repr

/-- Insert-or-replace on an association list, the effect of
`sled::Db::insert`. -/
def assocSet (l : List (String × StoredVal)) (k : String) (v : StoredVal) :
    List (String × StoredVal) :=
  match l with
  | [] => [(k, v)]
  | (k', v') :: rest =>
      if k' = k then (k, v) :: rest else (k', v') :: assocSet rest k v

/-- Association-list lookup, the effect of `sled::Db::get`. -/
def assocGet (l : List (String × StoredVal)) (k : String) : Option StoredVal :=
  match l with
  | [] => Option.none
  | (k', v') :: rest => if k' = k then Option.some v' else assocGet rest k

/-- Content-addressed audio file storage under `~/.playit/audio/`. -/
def audioGet (l : List (String × List Nat)) (k : String) : Option (List Nat) :=
  match l with
  | [] => Option.none
  | (k', v') :: rest => if k' = k then Option.some v' else audioGet rest k

def audioSet (l : List (String × List Nat)) (k : String) (v : List Nat) :
    List (String × List Nat) :=
  match l with
  | [] => [(k, v)]
  | (k', v') :: rest =>
      if k' = k then (k, v) :: rest else (k', v') :: audioSet rest k v

/-- State owned by `Database`: the `metadata` sled tree, the `playlist` sled
tree, and the content-addressed audio directory. -/
structure DbState where
  metadataDb : List (String × StoredVal)
  playlistDb : List (String × StoredVal)
  audioFiles : List (String × List Nat)
deriving DecidableEq, Repr

/-- External collaborators of the database and sequencer: the MusicBrainz
lookup, the SHA-256 digest, and the audio decoder's verdict on file bytes. -/
structure MediaEnv where
  mbFetch : String → Option Recording
  sha256 : List Nat → String
  decodesBytes : List Nat → Bool
  seekOk : Duration → Bool

namespace Database

/-- Model of `Database::get_recording_metadata` (`database.rs` lines 131-168).
A cache miss fetches from MusicBrainz and inserts fresh metadata with no
audio file hash.  Failures of the sled `get` itself (`DatabaseFailure`) and
of `serde_json::to_vec` (`DataConversionFailure` on the miss path) are
environment faults outside this model, which takes the successful path. -/
def get_recording_metadata (env : MediaEnv) (db : DbState) (id : String) :
    DbState × Except DatabaseError RecordingMetadata :=
  match assocGet db.metadataDb id with
  | Option.some (StoredVal.recv m) => (db, Except.ok m)
  | Option.some (StoredVal.plv _) => (db, Except.error DatabaseError.dataConversionFailure)
  | Option.none =>
      match env.mbFetch id with
      | Option.none => (db, Except.error DatabaseError.musicbrainzFailure)
      | Option.some recording =>
          let new_metadata : RecordingMetadata :=
            { audio_file_hash := Option.none, recording := recording }
          ({ db with
              metadataDb := assocSet db.metadataDb id (StoredVal.recv new_metadata) },
            Except.ok new_metadata)

/-- Model of `Database::get_recording_file` (`database.rs` lines 75-91), returning the
file bytes.  When the metadata names a hash whose file is missing, the code
builds `self.set_recording_file(id, None)` but never awaits the future
(line 85), so no state change happens on that path. -/
def get_recording_file (env : MediaEnv) (db : DbState) (id : String) :
    DbState × Except DatabaseError (List Nat) :=
  match get_recording_metadata env db id with
  | (db1, Except.error _) => (db1, Except.error DatabaseError.recordingMetadataNotFound)
  | (db1, Except.ok metadata) =>
      match metadata.audio_file_hash with
      | Option.none => (db1, Except.error DatabaseError.recordingFileNotFound)
      | Option.some audio_file_hash =>
          match audioGet db1.audioFiles audio_file_hash with
          | Option.none => (db1, Except.error DatabaseError.recordingFileNotFound)
          | Option.some bytes => (db1, Except.ok bytes)

/-- Model of `Database::set_recording_file` (`database.rs` lines 93-129).
A failing `File::create` or `serde_json::to_vec` makes the code return with
no change; the model takes the successful filesystem path. -/
def set_recording_file (env : MediaEnv) (db : DbState) (id : String)
    (file_contents : Option (List Nat)) : DbState :=
  match get_recording_metadata env db id with
  | (db1, Except.error _) => db1
  | (db1, Except.ok metadata) =>
      match file_contents with
      | Option.none =>
          { db1 with
              metadataDb := assocSet db1.metadataDb id
                (StoredVal.recv { metadata with audio_file_hash := Option.none }) }
      | Option.some bytes =>
          let audio_file_hash := env.sha256 bytes
          { db1 with
              audioFiles := audioSet db1.audioFiles audio_file_hash bytes,
              metadataDb := assocSet db1.metadataDb id
                (StoredVal.recv { metadata with audio_file_hash := Option.some audio_file_hash }) }

/-- Model of `Database::get_playlist` (`database.rs` lines 170-186): reads the
`playlist` sled tree. -/
def get_playlist (db : DbState) (id : String) :
    Except DatabaseError PlaylistMetadata :=
  match assocGet db.playlistDb id with
  | Option.none => Except.error DatabaseError.playlistNotFound
  | Option.some (StoredVal.plv m) => Except.ok m
  | Option.some (StoredVal.recv _) => Except.error DatabaseError.dataConversionFailure

/-- Model of `Database::set_playlist` (`database.rs` lines 188-197): serializes the
playlist and inserts it — into `self.metadata_db`, not `self.playlist_db`. -/
def set_playlist (db : DbState) (metadata : PlaylistMetadata) : DbState :=
  { db with metadataDb := assocSet db.metadataDb metadata.id (StoredVal.plv metadata) }

end Database

/-! ## Sequencer (`engine/src/player/sequencer.rs`) -/

/-- Model of `SequencerError` from `engine/src/player/sequencer.rs`. -/
inductive SequencerError
  | audioInitializationFailed
  | missingAudioFile
  | decodingError
  | seekFailed
  | nothingPlaying
  | noSongsPlayed
  | noSongsQueued
deriving DecidableEq, Repr

/-- The two `Arc<Mutex<Vec<String>>>` storage cells allocated by
`Sequencer::new`: `qc` is the allocation initially referenced by the `queue`
field, `sc` the one initially referenced by `shuffled_queue`. -/
inductive Cell
  | qc
  | sc
deriving DecidableEq, Repr

/-- The shared mutable state behind a `Sequencer`'s `Arc`s. -/
structure SeqState where
  paused : Bool
  playing : Option String
  loop_mode : LoopMode
  shuffle : Bool
  qcVal : List String
  scVal : List String
  song_backlog : List String
  volume : Option Volume
deriving DecidableEq, Repr

def SeqState.cell (st : SeqState) : Cell → List String
  | Cell.qc => st.qcVal
  | Cell.sc => st.scVal

def SeqState.setCell (st : SeqState) : Cell → List String → SeqState
  | Cell.qc, v => { st with qcVal := v }
  | Cell.sc, v => { st with scVal := v }

/-- One `Sequencer` value: which cell its `queue` Arc and its
`shuffled_queue` Arc point at.  All other fields are shared between every
handle (their Arcs are always cloned onto the same allocation). -/
structure SeqHandle where
  queueRef : Cell
  shuffledRef : Cell
deriving DecidableEq, Repr

/-- The handle built by `Sequencer::new`. -/
def SeqHandle.base : SeqHandle := ⟨Cell.qc, Cell.sc⟩

/-- Model of `impl Clone for Sequencer` (`sequencer.rs` lines 259-273): every field's
Arc is cloned onto the same allocation, except that the new `shuffled_queue`
field is built from `self.queue.clone()` (line 268). -/
def SeqHandle.clone (h : SeqHandle) : SeqHandle :=
  { queueRef := h.queueRef, shuffledRef := h.queueRef }

/-- The sequencer state produced by `Sequencer::new` (`sequencer.rs` lines
37-62): the sink starts paused, everything else empty / default. -/
def initialSeqState : SeqState :=
  { paused := true
    playing := Option.none
    loop_mode := LoopMode.nonemode
    shuffle := false
    qcVal := []
    scVal := []
    song_backlog := []
    volume := Option.none }

/-- Swap the elements at positions `i` and `j`, the effect of
`Vec::swap` (indices are in range at every call site below). -/
def listSwap (l : List String) (i j : Nat) : List String :=
  match l[i]?, l[j]? with
  | Option.some a, Option.some b => (l.set i b).set j a
  | _, _ => l

/-- Model of `shuffle_queue` (`sequencer.rs` lines 275-285).  `draws i` is the value
of `rand::random::<u32>() as usize` at iteration `i`.  The loop bound is the
`usize` expression `shuffle_array.len() - 2`: for a queue of length 0 or 1 it
underflows, and the iteration then computes `… % (shuffle_array.len() - i)`
with a zero modulus, so the call panics (in a debug build the subtraction
itself panics); those inputs are `none`.  For length ≥ 2 the scan swaps
position `i` with position `(draws i) % (len - i) + i` for each
`i < len - 2`. -/
def shuffle_queue (queue : List String) (draws : Nat → Nat) :
    Option (List String) :=
  if queue.length < 2 then
    Option.none
  else
    Option.some ((List.range (queue.length - 2)).foldl
      (fun shuffle_array i =>
        listSwap shuffle_array i ((draws i) % (queue.length - i) + i))
      queue)

/-- The combined state a `Sequencer` can reach: its own shared fields plus
the `Database` handle it owns (the same sled trees the broker uses). -/
structure PlayerState where
  db : DbState
  seq : SeqState
deriving DecidableEq, Repr

namespace Sequencer

/-- Model of `Sequencer::get_playing` (`sequencer.rs` lines 64-72): `None` while the
sink is paused, else the `playing` field. -/
def get_playing (st : SeqState) : Option String :=
  if st.paused then Option.none else st.playing

/-- Model of `Sequencer::play` (`sequencer.rs` lines 74-90): fetch the file through
the database (which may cache MusicBrainz metadata), decode it, start the
sink, and record `playing`.  It never touches `song_backlog`. -/
def play (env : MediaEnv) (ps : PlayerState) (id : String) :
    PlayerState × Except SequencerError Unit :=
  match Database.get_recording_file env ps.db id with
  | (db1, Except.error _) =>
      ({ ps with db := db1 }, Except.error SequencerError.missingAudioFile)
  | (db1, Except.ok bytes) =>
      if env.decodesBytes bytes then
        ({ db := db1,
           seq := { ps.seq with paused := false, playing := Option.some id } },
          Except.ok ())
      else
        ({ ps with db := db1 }, Except.error SequencerError.decodingError)

/-- Model of `Sequencer::pause` (`sequencer.rs` lines 92-94). -/
def pause (st : SeqState) : SeqState :=
  { st with paused := true }

/-- Model of `Sequencer::seek` (`sequencer.rs` lines 96-102): delegates to the sink. -/
def seek (env : MediaEnv) (position : Duration) : Except SequencerError Unit :=
  if env.seekOk position then Except.ok () else Except.error SequencerError.seekFailed

/-- Model of `Sequencer::next` (`sequencer.rs` lines 104-184), through handle `h`.

`none` marks executions that never complete:
* in the `LoopMode::None` shuffle branch, line 122 locks `self.queue` while
  the guard of line 110 (on `self.shuffled_queue`) is still alive — when the
  two fields alias the same mutex (a cloned handle) the task deadlocks;
* in the `LoopMode::LoopQueue` shuffle branch with an exhausted shuffled
  view, line 149 locks `self.shuffled_queue` again while line 140's guard on
  it is still held, so the re-materialization deadlocks (and via a cloned
  handle line 143 already deadlocks). -/
def next (env : MediaEnv) (h : SeqHandle) (draws : Nat → Nat) (ps : PlayerState) :
    Option (PlayerState × Except SequencerError Unit) :=
  match ps.seq.loop_mode with
  | LoopMode.nonemode =>
      let should_shuffle := ps.seq.shuffle
      let viewCell := if should_shuffle then h.shuffledRef else h.queueRef
      match ps.seq.cell viewCell with
      | [] => Option.some (ps, Except.error SequencerError.noSongsQueued)
      | song_to_play :: restView =>
          if should_shuffle then
            if h.queueRef = h.shuffledRef then
              Option.none
            else
              let st1 := ps.seq.setCell viewCell restView
              let st2 := st1.setCell h.queueRef ((st1.cell h.queueRef).erase song_to_play)
              Option.some (play env { ps with seq := st2 } song_to_play)
          else
            let st1 := ps.seq.setCell viewCell restView
            Option.some (play env { ps with seq := st1 } song_to_play)
  | LoopMode.loopQueue =>
      let should_shuffle := ps.seq.shuffle
      if should_shuffle then
        match ps.seq.cell h.shuffledRef with
        | [] => Option.none
        | song_to_play :: restView =>
            let st1 := ps.seq.setCell h.shuffledRef restView
            Option.some (play env { ps with seq := st1 } song_to_play)
      else
        match ps.seq.cell h.queueRef with
        | [] => Option.some (ps, Except.error SequencerError.noSongsQueued)
        | song_to_play :: restQueue =>
            let st1 := ps.seq.setCell h.queueRef (restQueue ++ [song_to_play])
            Option.some (play env { ps with seq := st1 } song_to_play)
  | LoopMode.loopRecording =>
      match ps.seq.playing with
      | Option.none => Option.some (ps, Except.error SequencerError.nothingPlaying)
      | Option.some song_to_loop => Option.some (play env ps song_to_loop)

/-- Model of `Sequencer::previous` (`sequencer.rs` lines 186-205): pop the backlog
head, re-insert it at the head of the canonical queue (and of the shuffled
view while shuffle is on), then play it.  All its locks are
statement-scoped, so no aliasing deadlock arises. -/
def previous (env : MediaEnv) (h : SeqHandle) (ps : PlayerState) :
    PlayerState × Except SequencerError Unit :=
  match ps.seq.song_backlog with
  | [] => (ps, Except.error SequencerError.noSongsPlayed)
  | song_to_play :: restBacklog =>
      let st1 := { ps.seq with song_backlog := restBacklog }
      let st2 := st1.setCell h.queueRef (song_to_play :: st1.cell h.queueRef)
      let st3 :=
        if st2.shuffle then
          st2.setCell h.shuffledRef (song_to_play :: st2.cell h.shuffledRef)
        else st2
      play env { ps with seq := st3 } song_to_play

/-- Model of `Sequencer::add_queue` (`sequencer.rs` lines 207-225): each playable id
(one whose `get_recording_file` succeeds) is pushed onto the canonical
queue, the rest are collected as `unplayable`.  The guard taken on
`self.queue` at line 210 lives to the end of the function, and line 221
locks `self.queue` again to rebuild the shuffled view — so whenever
`shuffle` is on the call deadlocks (`none`). -/
def addQueueStep (env : MediaEnv) (h : SeqHandle)
    (acc : PlayerState × List String) (id : String) : PlayerState × List String :=
  match Database.get_recording_file env acc.1.db id with
  | (db1, Except.ok _) =>
      ({ db := db1,
         seq := acc.1.seq.setCell h.queueRef (acc.1.seq.cell h.queueRef ++ [id]) },
        acc.2)
  | (db1, Except.error _) => ({ acc.1 with db := db1 }, acc.2 ++ [id])

def add_queue (env : MediaEnv) (h : SeqHandle) (ps : PlayerState)
    (ids : List String) : Option (PlayerState × List String) :=
  let pushed := ids.foldl (addQueueStep env h) (ps, [])
  if pushed.1.seq.shuffle then
    Option.none
  else
    Option.some pushed

/-- Model of `Sequencer::get_queue` (`sequencer.rs` lines 227-233). -/
def get_queue (h : SeqHandle) (st : SeqState) : List String :=
  if st.shuffle then st.cell h.shuffledRef else st.cell h.queueRef

/-- Model of `Sequencer::clear_queue` (`sequencer.rs` lines 235-238). -/
def clear_queue (h : SeqHandle) (st : SeqState) : SeqState :=
  ((st.setCell h.queueRef []).setCell h.shuffledRef [])

/-- Model of `Sequencer::set_loop_mode` (`sequencer.rs` lines 240-242). -/
def set_loop_mode (st : SeqState) (mode : LoopMode) : SeqState :=
  { st with loop_mode := mode }

/-- Model of `Sequencer::set_shuffle` (`sequencer.rs` lines 244-252).  Enabling
evaluates `shuffle_queue(self.queue.lock().await.to_vec())` first (the
assignment's right operand), which panics when the queue holds fewer than
two elements; the guard on `self.queue` then stays alive while the left
operand locks `self.shuffled_queue`, so when the two fields alias the same
mutex (a cloned handle) the assignment deadlocks.  Disabling clears the
shuffled view with a statement-scoped lock. -/
def set_shuffle (h : SeqHandle) (draws : Nat → Nat) (st : SeqState)
    (enable : Bool) : Option SeqState :=
  if enable then
    match shuffle_queue (st.cell h.queueRef) draws with
    | Option.none => Option.none
    | Option.some shuffled =>
        if h.shuffledRef = h.queueRef then
          Option.none
        else
          Option.some { st.setCell h.shuffledRef shuffled with shuffle := true }
  else
    Option.some { st.setCell h.shuffledRef [] with shuffle := false }

/-- Model of `Sequencer::set_volume` (`sequencer.rs` lines 254-256). -/
def set_volume (st : SeqState) (volume : Volume) : SeqState :=
  { st with volume := Option.some volume }

end Sequencer

/-! ## Command Broker (`engine/src/lib.rs`, `start_command_processor`) -/

/-- The state carried across iterations of the command-processor loop: the
loop-local `current_user_permissions` vector (`lib.rs` line 188) plus the
player state reachable through the broker's `database` and `sequencer`
handles. -/
structure BrokerState where
  current_user_permissions : List Permission
  player : PlayerState
deriving DecidableEq, Repr

/-- The broker state at the start of the loop (`lib.rs` lines 184-190):
the permission list starts empty.  The broker's sequencer handle is
`self.sequencer.clone()` (line 185). -/
def initialBrokerState (db : DbState) : BrokerState :=
  { current_user_permissions := [], player := { db := db, seq := initialSeqState } }

/-- The capability checked by each permission-gated arm of
`start_command_processor`; `none` for arms with no check. -/
def requiredPermission : EngineCommand → Option Permission
  | EngineCommand.play (Option.some _) => Option.some Permission.control
  | EngineCommand.pause => Option.some Permission.control
  | EngineCommand.next => Option.some Permission.control
  | EngineCommand.previous => Option.some Permission.control
  | EngineCommand.seek _ => Option.some Permission.control
  | EngineCommand.queue (Option.some _) => Option.some Permission.queuePerm
  | EngineCommand.shuffleQueue _ => Option.some Permission.control
  | EngineCommand.clearQueue => Option.some Permission.queuePerm
  | EngineCommand.loopMode _ => Option.some Permission.control
  | EngineCommand.sendRecording _ _ => Option.some Permission.transfer
  | EngineCommand.setPlaylistMetadata _ => Option.some Permission.playlist
  | _ => Option.none

/-- The `NowPlaying`/`NowPaused` status response built inline by several
arms (`if let Some(id) = sequencer.get_playing().await { … }`). -/
def statusResponse (st : SeqState) : EngineResponse :=
  match Sequencer.get_playing st with
  | Option.some id => EngineResponse.nowPlaying id
  | Option.none => EngineResponse.nowPaused

/-- One iteration of the command-processor loop of `start_command_processor`
(`lib.rs` lines 190-656), dispatching `(command, uuid, internal)` against
broker state `st` through sequencer handle `h`.  Internal-bus messages
arrive with `uuid = Uuid.nil` and `internal = true` (lines 192-197);
connection messages arrive with their connection token and
`internal = false` (lines 199-205).  Returns the successor state and the
sends performed, or `none` when the iteration panics or deadlocks inside a
sequencer call. -/
def processCommand (env : MediaEnv) (draws : Nat → Nat) (h : SeqHandle)
    (st : BrokerState) (command : EngineCommand) (uuid : Uuid)
    (internal : Bool) : Option (BrokerState × List Send) :=
  match command with
  | EngineCommand.nonecmd =>
      Option.some (st, route_response internal (EngineResponse.ok command) uuid)
  | EngineCommand.goodbye =>
      Option.some (st, route_response internal (EngineResponse.ok command) uuid)
  | EngineCommand.play Option.none =>
      Option.some (st,
        route_response internal (statusResponse st.player.seq) Uuid.nil)
  | EngineCommand.play (Option.some id) =>
      if !internal && !(permission_exists st.current_user_permissions Permission.control) then
        Option.some (st,
          [Send.toRemote (EngineResponse.nope (EngineCommand.play (Option.some id))) uuid])
      else
        match Sequencer.play env st.player id with
        | (ps1, Except.ok _) =>
            Option.some ({ st with player := ps1 },
              route_response internal (statusResponse ps1.seq) Uuid.nil ++
              route_response internal
                (EngineResponse.queue (Sequencer.get_queue h ps1.seq)) Uuid.nil)
        | (ps1, Except.error _) =>
            Option.some ({ st with player := ps1 },
              route_response internal
                (EngineResponse.nope (EngineCommand.play (Option.some id))) uuid)
  | EngineCommand.pause =>
      if !internal && !(permission_exists st.current_user_permissions Permission.control) then
        Option.some (st, [Send.toRemote (EngineResponse.nope command) uuid])
      else
        let st1 := { st with player := { st.player with seq := Sequencer.pause st.player.seq } }
        Option.some (st1,
          route_response internal (statusResponse st1.player.seq) Uuid.nil)
  | EngineCommand.next =>
      if !internal && !(permission_exists st.current_user_permissions Permission.control) then
        Option.some (st, [Send.toRemote (EngineResponse.nope command) uuid])
      else
        match Sequencer.next env h draws st.player with
        | Option.none => Option.none
        | Option.some (ps1, Except.ok _) =>
            Option.some ({ st with player := ps1 },
              route_response internal (statusResponse ps1.seq) Uuid.nil ++
              route_response internal
                (EngineResponse.queue (Sequencer.get_queue h ps1.seq)) Uuid.nil)
        | Option.some (ps1, Except.error _) =>
            Option.some ({ st with player := ps1 },
              route_response internal (EngineResponse.nope EngineCommand.next) uuid)
  | EngineCommand.previous =>
      if !internal && !(permission_exists st.current_user_permissions Permission.control) then
        Option.some (st, [Send.toRemote (EngineResponse.nope command) uuid])
      else
        match Sequencer.previous env h st.player with
        | (ps1, Except.ok _) =>
            Option.some ({ st with player := ps1 },
              route_response internal (statusResponse ps1.seq) Uuid.nil ++
              route_response internal
                (EngineResponse.queue (Sequencer.get_queue h ps1.seq)) Uuid.nil)
        | (ps1, Except.error _) =>
            Option.some ({ st with player := ps1 },
              route_response internal (EngineResponse.nope EngineCommand.previous) uuid)
  | EngineCommand.seek position =>
      if !internal && !(permission_exists st.current_user_permissions Permission.control) then
        Option.some (st, [Send.toRemote (EngineResponse.nope command) uuid])
      else
        match Sequencer.seek env position with
        | Except.ok _ =>
            Option.some (st, route_response internal (EngineResponse.seek 0) Uuid.nil)
        | Except.error _ =>
            Option.some (st,
              route_response internal
                (EngineResponse.nope (EngineCommand.seek position)) uuid)
  | EngineCommand.queue Option.none =>
      Option.some (st,
        route_response internal
          (EngineResponse.queue (Sequencer.get_queue h st.player.seq)) Uuid.nil)
  | EngineCommand.queue (Option.some recording_ids) =>
      if !internal && !(permission_exists st.current_user_permissions Permission.queuePerm) then
        Option.some (st,
          [Send.toRemote
            (EngineResponse.nope (EngineCommand.queue (Option.some recording_ids))) uuid])
      else
        -- the `let Ok(not_queued) = … else { … }` failure arm of the source
        -- is dead code: `add_queue` never returns `Err`
        match Sequencer.add_queue env h st.player recording_ids with
        | Option.none => Option.none
        | Option.some (ps1, not_queued) =>
            Option.some ({ st with player := ps1 },
              (if not_queued.length ≠ 0 then
                route_response internal
                  (EngineResponse.nope (EngineCommand.queue (Option.some not_queued))) uuid
              else []) ++
              route_response internal
                (EngineResponse.queue (Sequencer.get_queue h ps1.seq)) Uuid.nil)
  | EngineCommand.shuffleQueue enable =>
      if !internal && !(permission_exists st.current_user_permissions Permission.control) then
        Option.some (st, [Send.toRemote (EngineResponse.nope command) uuid])
      else
        match Sequencer.set_shuffle h draws st.player.seq enable with
        | Option.none => Option.none
        | Option.some seq1 =>
            Option.some ({ st with player := { st.player with seq := seq1 } },
              route_response internal
                (EngineResponse.queue (Sequencer.get_queue h seq1)) Uuid.nil)
  | EngineCommand.clearQueue =>
      if !internal && !(permission_exists st.current_user_permissions Permission.queuePerm) then
        Option.some (st, [Send.toRemote (EngineResponse.nope command) uuid])
      else
        Option.some
          ({ st with player := { st.player with seq := Sequencer.clear_queue h st.player.seq } },
            route_response internal (EngineResponse.queue []) Uuid.nil)
  | EngineCommand.loopMode loop_mode =>
      if !internal && !(permission_exists st.current_user_permissions Permission.control) then
        Option.some (st,
          [Send.toRemote (EngineResponse.nope (EngineCommand.loopMode loop_mode)) uuid])
      else
        Option.some
          ({ st with
              player := { st.player with seq := Sequencer.set_loop_mode st.player.seq loop_mode } },
            route_response internal (EngineResponse.loopMode loop_mode) Uuid.nil)
  | EngineCommand.recordingMetadata id =>
      match Database.get_recording_metadata env st.player.db id with
      | (db1, Except.error _) =>
          Option.some ({ st with player := { st.player with db := db1 } },
            route_response internal
              (EngineResponse.nope (EngineCommand.recordingMetadata id)) uuid)
      | (db1, Except.ok recording_metadata) =>
          Option.some ({ st with player := { st.player with db := db1 } },
            route_response internal
              (EngineResponse.recordingMetadata recording_metadata) uuid)
  | EngineCommand.recordingFile id =>
      match Database.get_recording_file env st.player.db id with
      | (db1, Except.error _) =>
          Option.some ({ st with player := { st.player with db := db1 } },
            route_response internal
              (EngineResponse.nope (EngineCommand.recordingFile id)) uuid)
      | (db1, Except.ok buffer) =>
          Option.some ({ st with player := { st.player with db := db1 } },
            route_response internal (EngineResponse.recordingFile id buffer) uuid)
  | EngineCommand.sendRecording id recording =>
      if !internal && !(permission_exists st.current_user_permissions Permission.transfer) then
        Option.some (st,
          [Send.toRemote
            (EngineResponse.nope (EngineCommand.sendRecording id recording)) uuid])
      else
        let db1 := Database.set_recording_file env st.player.db id (Option.some recording)
        Option.some ({ st with player := { st.player with db := db1 } },
          route_response internal
            (EngineResponse.ok (EngineCommand.sendRecording id recording)) uuid)
  | EngineCommand.playlistMetadata id =>
      match Database.get_playlist st.player.db id with
      | Except.error _ =>
          Option.some (st,
            route_response internal
              (EngineResponse.nope (EngineCommand.playlistMetadata id)) uuid)
      | Except.ok playlist_metadata =>
          Option.some (st,
            route_response internal
              (EngineResponse.playlistMetadata playlist_metadata) uuid)
  | EngineCommand.setPlaylistMetadata metadata =>
      if !internal && !(permission_exists st.current_user_permissions Permission.playlist) then
        Option.some (st,
          [Send.toRemote
            (EngineResponse.nope (EngineCommand.setPlaylistMetadata metadata)) uuid])
      else
        let db1 := Database.set_playlist st.player.db metadata
        Option.some ({ st with player := { st.player with db := db1 } },
          route_response internal (EngineResponse.playlistMetadata metadata) Uuid.nil)
  | EngineCommand.setVolume volume =>
      if internal then
        Option.some
          ({ st with
              player := { st.player with seq := Sequencer.set_volume st.player.seq volume } },
            [])
      else
        Option.some (st, [])
  | EngineCommand.getPermissions =>
      if internal then
        Option.some (st,
          [Send.toInternal (EngineResponse.permissions
            [Permission.control, Permission.queuePerm, Permission.playlist,
              Permission.transfer])])
      else
        Option.some (st, [Send.toRemote (EngineResponse.permissions []) uuid])
  | EngineCommand.setPermissions new_permissions =>
      if internal then
        Option.some ({ st with current_user_permissions := new_permissions },
          [Send.toInternal (EngineResponse.permissions new_permissions)])
      else
        Option.some (st,
          [Send.toRemote (EngineResponse.nope (EngineCommand.setPermissions new_permissions)) uuid])

/-! ## Operation sequences over one Sequencer (for the queue/shuffle
invariant) -/

/-- One Sequencer mutation from the family quantified by the
queue/shuffle-consistency property: `add_queue`, `set_shuffle(true)` or
`next`, with the random draws its call would consume. -/
inductive SeqOp
  | addQueue (ids : List String)
  | setShuffleTrue (draws : Nat → Nat)
  | next (draws : Nat → Nat)

/-- Run one `SeqOp` through handle `h`, keeping the state and discarding the
call's return value; `none` when the call panics or deadlocks. -/
def stepOp (env : MediaEnv) (h : SeqHandle) (ps : PlayerState) :
    SeqOp → Option PlayerState
  | SeqOp.addQueue ids =>
      (Sequencer.add_queue env h ps ids).map (fun res => res.1)
  | SeqOp.setShuffleTrue draws =>
      (Sequencer.set_shuffle h draws ps.seq true).map (fun seq1 => { ps with seq := seq1 })
  | SeqOp.next draws =>
      (Sequencer.next env h draws ps).map (fun res => res.1)

/-- Run a sequence of Sequencer mutations through handle `h`. -/
def runOps (env : MediaEnv) (h : SeqHandle) :
    List SeqOp → PlayerState → Option PlayerState
  | [], ps => Option.some ps
  | op :: rest, ps =>
      match stepOp env h ps op with
      | Option.none => Option.none
      | Option.some ps1 => runOps env h rest ps1

/-! ## Concrete fixtures used by counterexamples and witnesses -/

/-- An environment whose device accepts everything, whose decoder accepts
everything, and whose MusicBrainz lookup finds nothing new. -/
def env0 : MediaEnv :=
  { mbFetch := fun _ => Option.none
    sha256 := fun _ => "h"
    decodesBytes := fun _ => true
    seekOk := fun _ => true }

/-- A database with two playable recordings `"A"` and `"B"` and no
playlists. -/
def db0 : DbState :=
  { metadataDb :=
      [("A", StoredVal.recv { audio_file_hash := Option.some "hA", recording := ⟨"A"⟩ }),
       ("B", StoredVal.recv { audio_file_hash := Option.some "hB", recording := ⟨"B"⟩ })]
    playlistDb := []
    audioFiles := [("hA", [0]), ("hB", [1])] }

/-- A completely empty database. -/
def dbEmpty : DbState :=
  { metadataDb := [], playlistDb := [], audioFiles := [] }

/-- The player state of a freshly constructed engine over `db0`. -/
def ps0 : PlayerState := { db := db0, seq := initialSeqState }

/-- A fixed stream of random draws. -/
def draws0 : Nat → Nat := fun _ => 0

/-! ## Permutation facts about `shuffle_queue` -/

lemma getElem?_set_same : ∀ (l : List String) (i j : Nat) (b : String),
    l[j]? = Option.some b → (l.set i b)[j]? = Option.some b
  | [], _, _, _, h => by simp at h
  | c :: t, 0, 0, b, h => by simp
  | c :: t, 0, j + 1, b, h => by simpa using h
  | c :: t, i + 1, 0, b, h => by simpa using h
  | c :: t, i + 1, j + 1, b, h => by
      simpa using getElem?_set_same t i j b (by simpa using h)

lemma coe_set_exchange : ∀ (l : List String) (i : Nat) (x a : String),
    l[i]? = Option.some a →
    ((l.set i x : List String) : Multiset String) + {a}
      = (l : Multiset String) + {x}
  | [], _, _, _, h => by simp at h
  | c :: t, 0, x, a, h => by
      have hca : c = a := by simpa using h
      rw [hca]
      show ((x :: t : List String) : Multiset String) + {a}
        = ((a :: t : List String) : Multiset String) + {x}
      rw [← Multiset.cons_coe, ← Multiset.cons_coe, ← Multiset.singleton_add,
        ← Multiset.singleton_add]
      abel
  | c :: t, i + 1, x, a, h => by
      simp only [List.getElem?_cons_succ] at h
      have ih := coe_set_exchange t i x a h
      simp only [List.set]
      change (c ::ₘ ((t.set i x : List String) : Multiset String)) + {a}
        = (c ::ₘ (t : Multiset String)) + {x}
      rw [← Multiset.singleton_add, ← Multiset.singleton_add, add_assoc, add_assoc, ih]

/-- `Vec::swap` does not change the queue's contents as a multiset. -/
lemma coe_listSwap (l : List String) (i j : Nat) :
    ((listSwap l i j : List String) : Multiset String) = (l : Multiset String) := by
  unfold listSwap
  cases hi : l[i]? with
  | none => rfl
  | some a =>
    cases hj : l[j]? with
    | none => rfl
    | some b =>
      have hj' : (l.set i b)[j]? = Option.some b := getElem?_set_same l i j b hj
      have e1 := coe_set_exchange (l.set i b) j a b hj'
      have e2 := coe_set_exchange l i b a hi
      exact add_right_cancel (e1.trans e2)

/-- The swap scan of `shuffle_queue` preserves the multiset of tracks. -/
lemma coe_swapScan (f : List String → Nat → Nat) :
    ∀ (idxs : List Nat) (l : List String),
    ((idxs.foldl (fun arr i => listSwap arr i (f arr i)) l : List String) : Multiset String)
      = (l : Multiset String)
  | [], l => rfl
  | i :: rest, l => by
      rw [List.foldl_cons, coe_swapScan f rest (listSwap l i (f l i)), coe_listSwap]

/-- Whenever `shuffle_queue` completes, its output is a permutation of its
input. -/
lemma shuffle_queue_perm (queue out : List String) (draws : Nat → Nat)
    (h : shuffle_queue queue draws = Option.some out) : out.Perm queue := by
  unfold shuffle_queue at h
  split at h
  · exact absurd h (by simp)
  · rw [← Multiset.coe_eq_coe]
    have := coe_swapScan (fun arr i => (draws i) % (queue.length - i) + i)
      (List.range (queue.length - 2)) queue
    simp only [Option.some.injEq] at h
    rw [h] at this
    exact this

/-! ## The queue/shuffle containment invariant -/

/-- Playing a track touches only the database cache, the sink and the
`playing` field: the queue cells, shuffle flag and loop mode are unchanged. -/
lemma play_queue_fields (env : MediaEnv) (ps : PlayerState) (id : String) :
    (Sequencer.play env ps id).1.seq.qcVal = ps.seq.qcVal ∧
    (Sequencer.play env ps id).1.seq.scVal = ps.seq.scVal ∧
    (Sequencer.play env ps id).1.seq.shuffle = ps.seq.shuffle ∧
    (Sequencer.play env ps id).1.seq.loop_mode = ps.seq.loop_mode := by
  unfold Sequencer.play
  split
  · exact ⟨rfl, rfl, rfl, rfl⟩
  · split
    · exact ⟨rfl, rfl, rfl, rfl⟩
    · exact ⟨rfl, rfl, rfl, rfl⟩

/-- The enqueue scan of `add_queue` through the base handle only grows the
canonical queue cell and the database cache. -/
lemma addQueue_fold_fields (env : MediaEnv) :
    ∀ (ids : List String) (acc : PlayerState × List String),
    (List.foldl (Sequencer.addQueueStep env SeqHandle.base) acc ids).1.seq.scVal
        = acc.1.seq.scVal ∧
    (List.foldl (Sequencer.addQueueStep env SeqHandle.base) acc ids).1.seq.shuffle
        = acc.1.seq.shuffle
  | [], acc => ⟨rfl, rfl⟩
  | id :: rest, acc => by
      rw [List.foldl_cons]
      refine (addQueue_fold_fields env rest (Sequencer.addQueueStep env SeqHandle.base acc id)).imp
        (fun h1 => h1.trans ?_) (fun h2 => h2.trans ?_) <;>
        · unfold Sequencer.addQueueStep
          split <;> rfl

/-- The containment invariant: while shuffle is off the shuffled view is
empty, and the shuffled view is always a sub-multiset of the canonical
queue. -/
def QueueInv (ps : PlayerState) : Prop :=
  (ps.seq.shuffle = false → ps.seq.scVal = []) ∧
  (ps.seq.scVal : Multiset String) ≤ (ps.seq.qcVal : Multiset String)

lemma queueInv_initial (db : DbState) :
    QueueInv { db := db, seq := initialSeqState } :=
  ⟨fun _ => rfl, le_refl _⟩

lemma queueInv_of_empty_shuffled (ps : PlayerState) (h : ps.seq.scVal = []) :
    (ps.seq.scVal : Multiset String) ≤ (ps.seq.qcVal : Multiset String) := by
  rw [h]
  exact Multiset.zero_le _


/-- QueueInv only concerns fields `play` never changes, so it transfers
through a play call. -/
lemma queueInv_of_play (env : MediaEnv) (ps : PlayerState) (id : String)
    (hinv : QueueInv ps) : QueueInv (Sequencer.play env ps id).1 := by
  have hp := play_queue_fields env ps id
  refine ⟨fun hf => ?_, ?_⟩
  · rw [hp.2.1]
    exact hinv.1 (hp.2.2.1 ▸ hf)
  · rw [hp.1, hp.2.1]
    exact hinv.2

lemma stepOp_preserves_inv (env : MediaEnv) (op : SeqOp) (ps ps' : PlayerState)
    (hstep : stepOp env SeqHandle.base ps op = Option.some ps')
    (hinv : QueueInv ps) : QueueInv ps' := by
  cases op with
  | addQueue ids =>
      simp only [stepOp, Option.map_eq_some'] at hstep
      obtain ⟨res, hres, hfst⟩ := hstep
      have hf := addQueue_fold_fields env ids (ps, [])
      unfold Sequencer.add_queue at hres
      by_cases hshuffle :
          (List.foldl (Sequencer.addQueueStep env SeqHandle.base) (ps, []) ids).1.seq.shuffle
            = true
      · rw [if_pos hshuffle] at hres
        exact absurd hres (by simp)
      · rw [if_neg hshuffle] at hres
        simp only [Option.some.injEq] at hres
        have hps' :
            ps' = (List.foldl (Sequencer.addQueueStep env SeqHandle.base) (ps, []) ids).1 := by
          rw [← hfst, ← hres]
        have hsc : ps'.seq.scVal = ps.seq.scVal := by rw [hps']; exact hf.1
        have hshf : ps'.seq.shuffle = ps.seq.shuffle := by rw [hps']; exact hf.2
        have hpsFalse : ps.seq.shuffle = false := by
          rw [← hshf, hps']
          exact Bool.not_eq_true _ ▸ eq_false_of_ne_true hshuffle
        have hscNil : ps'.seq.scVal = [] := hsc.trans (hinv.1 hpsFalse)
        exact ⟨fun _ => hscNil, queueInv_of_empty_shuffled ps' hscNil⟩
  | setShuffleTrue draws =>
      simp only [stepOp, Option.map_eq_some'] at hstep
      obtain ⟨seq1, hseq1, hmk⟩ := hstep
      unfold Sequencer.set_shuffle at hseq1
      rw [if_pos rfl] at hseq1
      cases hq : shuffle_queue (ps.seq.cell SeqHandle.base.queueRef) draws with
      | none => rw [hq] at hseq1; exact absurd hseq1 (by simp)
      | some shuffled =>
          rw [hq] at hseq1
          simp only [SeqHandle.base, reduceCtorEq, if_false, Option.some.injEq] at hseq1
          have hperm := shuffle_queue_perm _ _ _ hq
          subst hmk
          rw [← hseq1]
          constructor
          · intro hcontr
            simp [SeqState.setCell, SeqHandle.base] at hcontr
          · show ((((ps.seq.setCell SeqHandle.base.shuffledRef shuffled)).scVal : Multiset String)
              ≤ _)
            simp only [SeqState.setCell, SeqHandle.base]
            exact le_of_eq (Multiset.coe_eq_coe.mpr hperm)
  | next draws =>
      simp only [stepOp, Option.map_eq_some'] at hstep
      obtain ⟨res, hres, hfst⟩ := hstep
      subst hfst
      unfold Sequencer.next at hres
      cases hlm : ps.seq.loop_mode <;> rw [hlm] at hres
      case nonemode =>
        cases hsh : ps.seq.shuffle <;>
          simp only [hsh, Bool.false_eq_true, if_false, if_true, SeqHandle.base,
            SeqState.cell, reduceCtorEq, Option.some.injEq] at hres
        · cases hq : ps.seq.qcVal <;> rw [hq] at hres <;>
            simp only [Option.some.injEq] at hres
          · exact hres ▸ hinv
          · rename_i song rest
            rw [← hres]
            apply queueInv_of_play
            have hscNil : ps.seq.scVal = [] := hinv.1 hsh
            refine ⟨fun _ => ?_, queueInv_of_empty_shuffled _ ?_⟩ <;>
              simpa [SeqState.setCell] using hscNil
        · cases hq : ps.seq.scVal <;> rw [hq] at hres <;>
            simp only [Option.some.injEq, reduceCtorEq, if_false] at hres
          · exact hres ▸ hinv
          · rename_i song rest
            rw [← hres]
            apply queueInv_of_play
            constructor
            · intro hcontr
              simp [SeqState.setCell, hsh] at hcontr
            · show (((ps.seq.setCell Cell.sc rest).setCell Cell.qc
                  ((ps.seq.setCell Cell.sc rest).qcVal.erase song)).scVal : Multiset String)
                ≤ _
              simp only [SeqState.setCell]
              have hle : ((song :: rest : List String) : Multiset String)
                  ≤ (ps.seq.qcVal : Multiset String) := by
                rw [← hq]; exact hinv.2
              rw [← Multiset.cons_coe] at hle
              have herase := Multiset.erase_le_erase song hle
              rw [Multiset.erase_cons_head, Multiset.coe_erase] at herase
              exact herase
      case loopQueue =>
        cases hsh : ps.seq.shuffle <;>
          simp only [hsh, Bool.false_eq_true, if_false, if_true, SeqHandle.base,
            SeqState.cell, reduceCtorEq, Option.some.injEq] at hres
        · cases hq : ps.seq.qcVal <;> rw [hq] at hres <;>
            simp only [Option.some.injEq] at hres
          · exact hres ▸ hinv
          · rename_i song rest
            rw [← hres]
            apply queueInv_of_play
            have hscNil : ps.seq.scVal = [] := hinv.1 hsh
            refine ⟨fun _ => ?_, queueInv_of_empty_shuffled _ ?_⟩ <;>
              simpa [SeqState.setCell] using hscNil
        · cases hq : ps.seq.scVal <;> rw [hq] at hres <;>
            simp only [Option.some.injEq, reduceCtorEq] at hres
          rename_i song rest
          rw [← hres]
          apply queueInv_of_play
          constructor
          · intro hcontr
            simp [SeqState.setCell, hsh] at hcontr
          · show (((ps.seq.setCell Cell.sc rest)).scVal : Multiset String) ≤ _
            simp only [SeqState.setCell]
            have hle : ((song :: rest : List String) : Multiset String)
                ≤ (ps.seq.qcVal : Multiset String) := by
              rw [← hq]; exact hinv.2
            rw [← Multiset.cons_coe] at hle
            exact le_trans (Multiset.le_cons_self _ _) hle
      case loopRecording =>
        cases hpl : ps.seq.playing <;> rw [hpl] at hres <;>
          simp only [Option.some.injEq] at hres
        · exact hres ▸ hinv
        · rw [← hres]
          exact queueInv_of_play env ps _ hinv

lemma runOps_preserves_inv (env : MediaEnv) :
    ∀ (ops : List SeqOp) (ps ps' : PlayerState),
    runOps env SeqHandle.base ops ps = Option.some ps' → QueueInv ps → QueueInv ps'
  | [], ps, ps', h, hinv => by
      simp only [runOps, Option.some.injEq] at h
      exact h ▸ hinv
  | op :: rest, ps, ps', h, hinv => by
      simp only [runOps] at h
      cases hs : stepOp env SeqHandle.base ps op with
      | none => rw [hs] at h; exact absurd h (by simp)
      | some ps1 =>
          rw [hs] at h
          exact runOps_preserves_inv env rest ps1 ps' h
            (stepOp_preserves_inv env op ps ps1 hs hinv)

lemma permission_exists_eq_false {l : List Permission} {p : Permission}
    (hp : p ∉ l) : permission_exists l p = false := by
  unfold permission_exists
  rw [if_neg]
  simp only [List.any_eq_true, decide_eq_true_eq, not_exists]
  rintro q ⟨hq, he⟩
  exact hp (he ▸ hq)

/-! ## Claims -/

/-- C1 (counterexample): the claim says a nil-token response reaches both
the internal bus and the external broadcast sink regardless of the
originating side.  But when the command originated internally
(`internal = true`), `route_response` takes its first branch and sends only
to the internal bus: at the concrete input `(true, NowPaused, nil)` nothing
is handed to the external sink. -/
theorem c1_counterexample :
    route_response true EngineResponse.nowPaused Uuid.nil
        = [Send.toInternal EngineResponse.nowPaused] ∧
    Send.toRemote EngineResponse.nowPaused Uuid.nil ∉
      route_response true EngineResponse.nowPaused Uuid.nil := by
  constructor
  · rfl
  · intro hmem
    simp [route_response] at hmem

/-- C1 (amended): a nil-token response is delivered to both the internal
bus and the external broadcast sink only when the command that produced it
originated externally (`internal = false`); every response produced while
processing an internally-originated command goes only to the internal bus,
nil token included; a response tagged with a specific (non-nil) token is
handed only to the external sink, and the per-connection writer forwards it
exactly to the connection whose id matches (while forwarding every
nil-tagged response to every connection). -/
theorem c1_routing_amended (r : EngineResponse) (uuid : Uuid) (selfId : Uuid)
    (n : Nat) :
    route_response false r Uuid.nil
        = [Send.toInternal r, Send.toRemote r Uuid.nil] ∧
    route_response true r uuid = [Send.toInternal r] ∧
    route_response false r (n + 1) = [Send.toRemote r (n + 1)] ∧
    connectionWriterForwards selfId Uuid.nil = true ∧
    (connectionWriterForwards selfId (n + 1) = true ↔ selfId = n + 1) := by
  refine ⟨rfl, rfl, ?_, ?_, ?_⟩
  · simp [route_response, Uuid.nil]
  · simp [connectionWriterForwards]
  · by_cases hcase : selfId = n + 1
    · subst hcase
      simp [connectionWriterForwards, Uuid.nil]
    · simp [connectionWriterForwards, Uuid.nil, hcase, Ne.symm hcase]

/-- C7 (code bug): the claim says `ShuffleQueue(true)` completes and
produces a permutation for every queue, in particular queues with fewer
than two elements, and never panics.  But `shuffle_queue` computes the
`usize` loop bound `len - 2` and the modulus `len - i`, which panic for
`len < 2`; an internal `ShuffleQueue(true)` on the fresh (empty-queue)
broker state therefore kills the broker task instead of responding. -/
theorem c7_shuffle_panics_on_short_queue :
    processCommand env0 draws0 SeqHandle.base.clone (initialBrokerState db0)
        (EngineCommand.shuffleQueue true) Uuid.nil true = Option.none ∧
    shuffle_queue [] draws0 = Option.none ∧
    shuffle_queue ["A"] draws0 = Option.none :=
  ⟨rfl, rfl, rfl⟩

/-- C9 (code bug): the claim says every element can reach every position
under some random draws.  But the swap scan runs `i` over `0..(len - 2)`,
which for a two-element queue is empty: `shuffle_queue ["A", "B"]` returns
`["A", "B"]` under every draw stream, so `"B"` can never reach position 0
(and a one-element queue panics rather than shuffling). -/
theorem c9_two_element_queue_never_swapped (draws : Nat → Nat) :
    shuffle_queue ["A", "B"] draws = Option.some ["A", "B"] ∧
    shuffle_queue ["A"] draws = Option.none :=
  ⟨rfl, rfl⟩

/-- C4 (code bug): the claim says `play(A); play(B); previous()` succeeds
and restores `A`.  But `Sequencer::play` never pushes anything onto
`song_backlog` (no method does), so after two successful plays the backlog
is still empty and `previous()` fails with `NoSongsPlayed`. -/
theorem c4_previous_fails_after_two_plays :
    (Sequencer.play env0 ps0 "A").2 = Except.ok () ∧
    (Sequencer.play env0 (Sequencer.play env0 ps0 "A").1 "B").2 = Except.ok () ∧
    (Sequencer.play env0 (Sequencer.play env0 ps0 "A").1 "B").1.seq.song_backlog = [] ∧
    (Sequencer.previous env0 SeqHandle.base
        (Sequencer.play env0 (Sequencer.play env0 ps0 "A").1 "B").1).2
      = Except.error SequencerError.noSongsPlayed :=
  ⟨rfl, rfl, rfl, rfl⟩

/-- C5 (code bug): the claim says `set_playlist(p)` followed by
`get_playlist(p.id)` returns `p`.  But `set_playlist` inserts the
serialized playlist into `metadata_db` while `get_playlist` reads
`playlist_db`, so on a fresh database the round-trip yields
`PlaylistNotFound` (and the playlist bytes sit in the metadata tree). -/
theorem c5_playlist_roundtrip_fails :
    Database.get_playlist
        (Database.set_playlist dbEmpty ⟨"p1", "My playlist", []⟩) "p1"
      = Except.error DatabaseError.playlistNotFound ∧
    assocGet (Database.set_playlist dbEmpty ⟨"p1", "My playlist", []⟩).metadataDb "p1"
      = Option.some (StoredVal.plv ⟨"p1", "My playlist", []⟩) ∧
    assocGet (Database.set_playlist dbEmpty ⟨"p1", "My playlist", []⟩).playlistDb "p1"
      = Option.none :=
  ⟨rfl, rfl, rfl⟩

/-- C6 (code bug): the claim says both directions terminate every message
with exactly one newline byte.  The client writer does push one `b'\n'`,
but the server's per-connection writer writes the bare `serde_json` string
(which contains no raw newline byte) with nothing appended: at the payload
`"\x7b\x7d"` (bytes 123, 125) the server emits zero trailing newlines. -/
theorem c6_server_writer_omits_newline :
    serverConnectionWrite [123, 125] = [123, 125] ∧
    trailingNewlines (serverConnectionWrite [123, 125]) = 0 ∧
    trailingNewlines (clientConnectionWrite [123, 125]) = 1 := by
  refine ⟨rfl, ?_, ?_⟩ <;> decide

/-- C10 (counterexample): the claim says that through the cloned handle
`set_shuffle(true)` overwrites the canonical queue in place with the fresh
permutation.  In fact the call never completes: on the concrete three-track
queue below it deadlocks (the assignment's right operand holds the lock on
the queue mutex while its left operand locks the aliased `shuffled_queue`
Arc, which is the same mutex), so no state is produced at all. -/
theorem c10_counterexample :
    Sequencer.set_shuffle SeqHandle.base.clone draws0
        { initialSeqState with qcVal := ["A", "B", "C"] } true = Option.none :=
  rfl

/-- C10 (amended): `Sequencer::clone` binds the new handle's
`shuffled_queue` field to the same shared storage as the source handle's
canonical queue.  Consequently, through the clone, `set_shuffle(false)`
clears the canonical queue; `set_shuffle(true)`, however, never completes —
it panics when the canonical queue holds fewer than two tracks and
otherwise deadlocks re-locking the aliased queue mutex — so the shuffled
permutation is never installed anywhere. -/
theorem c10_clone_aliases_queue (h : SeqHandle) (st : SeqState)
    (draws : Nat → Nat) :
    (SeqHandle.clone h).shuffledRef = h.queueRef ∧
    (SeqHandle.clone h).queueRef = h.queueRef ∧
    Sequencer.set_shuffle (SeqHandle.clone h) draws st false
        = Option.some { st.setCell h.queueRef [] with shuffle := false } ∧
    Sequencer.set_shuffle (SeqHandle.clone h) draws st true = Option.none := by
  refine ⟨rfl, rfl, rfl, ?_⟩
  unfold Sequencer.set_shuffle
  rw [if_pos rfl]
  cases hq : shuffle_queue (st.cell (SeqHandle.clone h).queueRef) draws with
  | none => rfl
  | some shuffled => simp [SeqHandle.clone]

/-- The broker state after the internal bus has granted `Control`. -/
def brokerWithControl : BrokerState :=
  { current_user_permissions := [Permission.control], player := ps0 }

/-- C2 (counterexample): the claim says the gating list is per connection
and that SetPermissions from any other origin — the internal bus included —
does not change a connection's gating.  Concretely: a `Pause` from external
connection 7 is first rejected (`Nope`), then the internal bus issues
`SetPermissions([Control])`, and the very same `Pause` from connection 7 is
now accepted and processed — connection 7 never issued any handshake. -/
theorem c2_counterexample :
    processCommand env0 draws0 SeqHandle.base.clone (initialBrokerState db0)
        EngineCommand.pause 7 false
      = Option.some (initialBrokerState db0,
          [Send.toRemote (EngineResponse.nope EngineCommand.pause) 7]) ∧
    processCommand env0 draws0 SeqHandle.base.clone (initialBrokerState db0)
        (EngineCommand.setPermissions [Permission.control]) Uuid.nil true
      = Option.some (brokerWithControl,
          [Send.toInternal (EngineResponse.permissions [Permission.control])]) ∧
    processCommand env0 draws0 SeqHandle.base.clone brokerWithControl
        EngineCommand.pause 7 false
      = Option.some (brokerWithControl,
          [Send.toInternal EngineResponse.nowPaused,
           Send.toRemote EngineResponse.nowPaused Uuid.nil]) :=
  ⟨rfl, rfl, rfl⟩

/-- C2 (amended): the broker keeps a single `current_user_permissions` list
shared by all external connections; it starts empty; a SetPermissions from
the internal bus replaces it (immediately changing the gating of every
external connection), while a SetPermissions from an external connection is
answered with `Nope` and leaves the list unchanged. -/
theorem c2_permissions_amended (env : MediaEnv) (draws : Nat → Nat)
    (h : SeqHandle) (st : BrokerState) (ps : List Permission) (db : DbState)
    (n : Nat) :
    (initialBrokerState db).current_user_permissions = [] ∧
    processCommand env draws h st (EngineCommand.setPermissions ps) Uuid.nil true
      = Option.some ({ st with current_user_permissions := ps },
          [Send.toInternal (EngineResponse.permissions ps)]) ∧
    processCommand env draws h st (EngineCommand.setPermissions ps) (n + 1) false
      = Option.some (st,
          [Send.toRemote (EngineResponse.nope (EngineCommand.setPermissions ps))
            (n + 1)]) :=
  ⟨rfl, rfl, rfl⟩

/-- C3 (confirmed): an external command gated on capability `p`, arriving
while the broker's permission list lacks `p`, produces exactly one send —
`Nope` of the very command, onto the external channel tagged with the
origin's token — and the whole broker state (permissions, sequencer fields
and database alike) is unchanged. -/
theorem c3_gated_external_gets_nope (env : MediaEnv) (draws : Nat → Nat)
    (h : SeqHandle) (st : BrokerState) (cmd : EngineCommand) (uuid : Uuid)
    (p : Permission) (hreq : requiredPermission cmd = Option.some p)
    (hp : p ∉ st.current_user_permissions) :
    processCommand env draws h st cmd uuid false
      = Option.some (st, [Send.toRemote (EngineResponse.nope cmd) uuid]) := by
  have hpe : permission_exists st.current_user_permissions p = false :=
    permission_exists_eq_false hp
  cases cmd with
  | nonecmd => simp [requiredPermission] at hreq
  | goodbye => simp [requiredPermission] at hreq
  | play id =>
      cases id with
      | none => simp [requiredPermission] at hreq
      | some i =>
          simp only [requiredPermission, Option.some.injEq] at hreq
          subst hreq
          simp [processCommand, hpe]
  | pause =>
      simp only [requiredPermission, Option.some.injEq] at hreq
      subst hreq
      simp [processCommand, hpe]
  | next =>
      simp only [requiredPermission, Option.some.injEq] at hreq
      subst hreq
      simp [processCommand, hpe]
  | previous =>
      simp only [requiredPermission, Option.some.injEq] at hreq
      subst hreq
      simp [processCommand, hpe]
  | seek position =>
      simp only [requiredPermission, Option.some.injEq] at hreq
      subst hreq
      simp [processCommand, hpe]
  | queue ids =>
      cases ids with
      | none => simp [requiredPermission] at hreq
      | some l =>
          simp only [requiredPermission, Option.some.injEq] at hreq
          subst hreq
          simp [processCommand, hpe]
  | shuffleQueue enable =>
      simp only [requiredPermission, Option.some.injEq] at hreq
      subst hreq
      simp [processCommand, hpe]
  | clearQueue =>
      simp only [requiredPermission, Option.some.injEq] at hreq
      subst hreq
      simp [processCommand, hpe]
  | loopMode m =>
      simp only [requiredPermission, Option.some.injEq] at hreq
      subst hreq
      simp [processCommand, hpe]
  | recordingMetadata id => simp [requiredPermission] at hreq
  | recordingFile id => simp [requiredPermission] at hreq
  | sendRecording id bytes =>
      simp only [requiredPermission, Option.some.injEq] at hreq
      subst hreq
      simp [processCommand, hpe]
  | playlistMetadata id => simp [requiredPermission] at hreq
  | setPlaylistMetadata m =>
      simp only [requiredPermission, Option.some.injEq] at hreq
      subst hreq
      simp [processCommand, hpe]
  | setVolume v => simp [requiredPermission] at hreq
  | getPermissions => simp [requiredPermission] at hreq
  | setPermissions ps => simp [requiredPermission] at hreq

/-- Witness for C3 at a concrete input: `Next` from external connection 7
against the fresh broker state (no permissions) yields exactly
`Nope(Next)` to connection 7 with the state untouched. -/
theorem c3_witness :
    requiredPermission EngineCommand.next = Option.some Permission.control ∧
    Permission.control ∉ (initialBrokerState db0).current_user_permissions ∧
    processCommand env0 draws0 SeqHandle.base.clone (initialBrokerState db0)
        EngineCommand.next 7 false
      = Option.some (initialBrokerState db0,
          [Send.toRemote (EngineResponse.nope EngineCommand.next) 7]) :=
  ⟨rfl, by simp [initialBrokerState],
    c3_gated_external_gets_nope env0 draws0 SeqHandle.base.clone
      (initialBrokerState db0) EngineCommand.next 7 Permission.control rfl
      (by simp [initialBrokerState])⟩

/-- C8 (confirmed): along any completed run of `add_queue`,
`set_shuffle(true)` and `next` calls from the fresh sequencer state, every
id in the shuffled view also appears in the canonical queue after every
operation. -/
theorem c8_shuffled_view_contained (env : MediaEnv) (db : DbState)
    (ops : List SeqOp) (ps' : PlayerState) (x : String)
    (hrun : runOps env SeqHandle.base ops { db := db, seq := initialSeqState }
      = Option.some ps')
    (hx : x ∈ ps'.seq.scVal) : x ∈ ps'.seq.qcVal := by
  have hinv := runOps_preserves_inv env ops _ ps' hrun (queueInv_initial db)
  have hmem : x ∈ (ps'.seq.scVal : Multiset String) := by
    rw [Multiset.mem_coe]; exact hx
  have hq := Multiset.mem_of_le hinv.2 hmem
  rwa [Multiset.mem_coe] at hq

/-- The concrete operation sequence and final state used to witness C8. -/
def opsC8 : List SeqOp :=
  [SeqOp.addQueue ["A", "B"], SeqOp.setShuffleTrue draws0, SeqOp.next draws0]

def psC8 : PlayerState :=
  { db := db0
    seq := { paused := false
             playing := Option.some "A"
             loop_mode := LoopMode.nonemode
             shuffle := true
             qcVal := ["B"]
             scVal := ["B"]
             song_backlog := []
             volume := Option.none } }

/-- Witness for C8: the run enqueue `A`,`B`; shuffle on; `next` completes in
state `psC8`, whose shuffled view `["B"]` is contained in its canonical
queue `["B"]`. -/
theorem c8_witness :
    runOps env0 SeqHandle.base opsC8 { db := db0, seq := initialSeqState }
        = Option.some psC8 ∧
    "B" ∈ psC8.seq.scVal ∧ "B" ∈ psC8.seq.qcVal :=
  ⟨rfl, by simp [psC8],
    c8_shuffled_view_contained env0 db0 opsC8 psC8 "B" rfl (by simp [psC8])⟩
